import Mathlib

/-!
# Verification of the payment-and-balance consistency protocol

Shallow embedding of `src/server.js` (OlaMarcus09/real-estate-backend-v2),
an Express + PostgreSQL backend.  The core under verification is the pair of
payment-recording endpoints (`POST /api/workers/:id/payments` and
`POST /api/vendors/:id/payments`): each runs `BEGIN`, inserts a ledger row,
updates the payee's denormalized aggregate (`total_paid`,
`last_payment_date`), and `COMMIT`s, with `ROLLBACK` + HTTP 500 on any error.

Modelling conventions:
* `DECIMAL(_,2)` money values are modelled as `Int` (a count of the smallest
  currency unit); PostgreSQL `DECIMAL` arithmetic is exact, so `Int` is a
  faithful, drift-free model of `total_paid = COALESCE(total_paid,0) + $1`.
* `DATE` values are modelled as `Int` (an ordinal day / `yyyymmdd` code is
  fine: only equality and order are used by the code).
* A request field that does not parse at the SQL layer (non-numeric amount,
  invalid date text, non-integer `:id` path parameter) is modelled as `none`;
  the corresponding `INSERT` fails exactly as PostgreSQL rejects an invalid
  parameter, before constraint checking.
* The `BEGIN`/`COMMIT`/`ROLLBACK` bracket is modelled as statements executing
  against a pending (uncommitted) copy of the database that is published at
  `COMMIT` and discarded at `ROLLBACK`, i.e. the statements of one request
  are taken to run inside one transaction on one connection.
* Infrastructure failures of individual statements (the spec's
  `StorageFault`, e.g. the payee row vanishing mid-transaction or the store
  being unreachable) are modelled by an injected `Faults` record; the source
  itself has no fault-handling branches beyond its single `catch`.
-/

/-- Row of the `workers` table (`CREATE TABLE workers`, server.js lines 36-45).
`total_paid DECIMAL(15,2) DEFAULT 0` and `last_payment_date DATE` (nullable)
are the denormalized aggregate. -/
structure WorkerRow where
  id : Nat
  name : String
  role : Option String
  hourly_rate : Option Int
  contact : Option String
  total_paid : Option Int
  last_payment_date : Option Int
  created_at : Nat
deriving DecidableEq

/-- Row of the `vendors` table (server.js lines 56-65). -/
structure VendorRow where
  id : Nat
  name : String
  category : Option String
  contact : Option String
  rating : Option Int
  total_paid : Option Int
  last_payment_date : Option Int
  created_at : Nat
deriving DecidableEq

/-- Row of the `worker_payments` ledger table (server.js lines 47-54):
`worker_id INTEGER REFERENCES workers(id) ON DELETE CASCADE`,
`amount DECIMAL(10,2) NOT NULL`, `payment_date DATE NOT NULL`. -/
structure WorkerPaymentRow where
  id : Nat
  worker_id : Nat
  amount : Int
  payment_date : Int
  description : Option String
  created_at : Nat
deriving DecidableEq

/-- Row of the `vendor_payments` ledger table (server.js lines 67-74). -/
structure VendorPaymentRow where
  id : Nat
  vendor_id : Nat
  amount : Int
  payment_date : Int
  description : Option String
  created_at : Nat
deriving DecidableEq

/-- Row of the `projects` table (server.js lines 23-34); carried only so that
frame properties can speak about the whole persisted state. -/
structure ProjectRow where
  id : Nat
  name : String
  location : Option String
  units : Option Int
  status : Option String
  budget : Option Int
  spent : Option Int
  start_date : Option Int
  progress_percent : Option Int
  created_at : Nat
deriving DecidableEq

/-- Row of the `inventory` table (server.js lines 76-84). -/
structure InventoryRow where
  id : Nat
  name : String
  category : Option String
  quantity : Option Int
  unit_price : Option Int
  min_stock : Option Int
  created_at : Nat
deriving DecidableEq

/-- The whole persisted state: the six tables created by `initDB`, the
`SERIAL` sequences backing each `id` column, and the current timestamp used
for `created_at DEFAULT CURRENT_TIMESTAMP`. -/
structure DB where
  projects : List ProjectRow
  workers : List WorkerRow
  worker_payments : List WorkerPaymentRow
  vendors : List VendorRow
  vendor_payments : List VendorPaymentRow
  inventory : List InventoryRow
  nextProjectId : Nat
  nextWorkerId : Nat
  nextWorkerPaymentId : Nat
  nextVendorId : Nat
  nextVendorPaymentId : Nat
  nextInventoryId : Nat
  now : Nat
deriving DecidableEq

/-- Cause of a failed SQL statement, as surfaced in `err.message`. -/
inductive DbErr where
  /-- `insert or update ... violates foreign key constraint` : the referenced
  payee row does not exist. -/
  | fkViolation : DbErr
  /-- `invalid input syntax` / null in a `NOT NULL` column: a request field
  did not parse at the SQL layer. -/
  | invalidInput : DbErr
  /-- an injected infrastructure failure of a statement. -/
  | storageFault : DbErr
deriving DecidableEq

/-- Outcome of a request handler: `res.json(v)` (HTTP 200) or
`res.status(500).json({error: err.message})`. -/
inductive ApiResult (α : Type) where
  | ok (v : α) : ApiResult α
  | serverError (cause : DbErr) : ApiResult α
deriving DecidableEq

/-- The HTTP status code of a handler outcome: `res.json` defaults to 200,
every `catch` branch answers `res.status(500)`. -/
def statusCode {α : Type} : ApiResult α → Nat
  | .ok _ => 200
  | .serverError _ => 500

/-- Injected per-statement infrastructure failures for the payment
transaction (all `false` reproduces the fault-free run). -/
structure Faults where
  insertFault : Bool
  updateFault : Bool
  commitFault : Bool
deriving DecidableEq

/-- The fault-free run. -/
def noFaults : Faults := ⟨false, false, false⟩

/-- `COALESCE(total_paid, 0)` on a nullable `DECIMAL` column. -/
def coalesce0 : Option Int → Int
  | none => 0
  | some v => v

/-- The row transformation of
`UPDATE workers SET total_paid = COALESCE(total_paid, 0) + $1,
last_payment_date = $2 WHERE id = $3` (server.js lines 230-233), applied
row-wise. -/
def updWorker (wid : Nat) (a d : Int) (w : WorkerRow) : WorkerRow :=
  if w.id = wid then
    { w with total_paid := some (coalesce0 w.total_paid + a),
             last_payment_date := some d }
  else w

/-- The row transformation of the matching `UPDATE vendors ...`
(server.js lines 318-321). -/
def updVendor (vid : Nat) (a d : Int) (v : VendorRow) : VendorRow :=
  if v.id = vid then
    { v with total_paid := some (coalesce0 v.total_paid + a),
             last_payment_date := some d }
  else v

/-- The row created by
`INSERT INTO worker_payments (worker_id, amount, payment_date, description)
VALUES ($1, $2, $3, $4) RETURNING *` (server.js lines 224-227): the `id`
comes from the `SERIAL` sequence, `created_at` from
`DEFAULT CURRENT_TIMESTAMP`. -/
def newWorkerPaymentRow (wid : Nat) (a d : Int) (desc : Option String)
    (db : DB) : WorkerPaymentRow :=
  { id := db.nextWorkerPaymentId, worker_id := wid, amount := a,
    payment_date := d, description := desc, created_at := db.now }

/-- The row created by the matching `INSERT INTO vendor_payments ...`
(server.js lines 312-315). -/
def newVendorPaymentRow (vid : Nat) (a d : Int) (desc : Option String)
    (db : DB) : VendorPaymentRow :=
  { id := db.nextVendorPaymentId, vendor_id := vid, amount := a,
    payment_date := d, description := desc, created_at := db.now }

/-- `POST /api/workers/:id/payments` (server.js lines 216-241).

The handler runs `BEGIN`, then
`INSERT INTO worker_payments (worker_id, amount, payment_date, description)
VALUES ($1,$2,$3,$4) RETURNING *`, then the `UPDATE workers` aggregate
update, then `COMMIT`; any thrown error is caught, `ROLLBACK` is issued and
the response is `500 {error: err.message}`.  The insert fails when a
parameter does not parse (`invalidInput`), when the `worker_id` foreign key
references no `workers` row (`fkViolation`), or on an injected
infrastructure fault; the update and the commit can fail only by injected
fault.  The first component of the result is the committed database, the
second the HTTP response. -/
def recordWorkerPayment (f : Faults) (idp : Option Nat) (amt dt : Option Int)
    (desc : Option String) (db : DB) : DB × ApiResult WorkerPaymentRow :=
  if f.insertFault then (db, .serverError .storageFault)
  else
    match idp, amt, dt with
    | some wid, some a, some d =>
      if db.workers.any (fun w => w.id = wid) then
        let row : WorkerPaymentRow := newWorkerPaymentRow wid a d desc db
        let pending : DB :=
          { db with worker_payments := db.worker_payments ++ [row],
                    nextWorkerPaymentId := db.nextWorkerPaymentId + 1 }
        if f.updateFault then (db, .serverError .storageFault)
        else
          let pending2 : DB :=
            { pending with workers := pending.workers.map (updWorker wid a d) }
          if f.commitFault then (db, .serverError .storageFault)
          else (pending2, .ok row)
      else (db, .serverError .fkViolation)
    | _, _, _ => (db, .serverError .invalidInput)

/-- `POST /api/vendors/:id/payments` (server.js lines 304-329), the vendor
counterpart of `recordWorkerPayment` with the same transaction script over
`vendor_payments` / `vendors`. -/
def recordVendorPayment (f : Faults) (idp : Option Nat) (amt dt : Option Int)
    (desc : Option String) (db : DB) : DB × ApiResult VendorPaymentRow :=
  if f.insertFault then (db, .serverError .storageFault)
  else
    match idp, amt, dt with
    | some vid, some a, some d =>
      if db.vendors.any (fun v => v.id = vid) then
        let row : VendorPaymentRow := newVendorPaymentRow vid a d desc db
        let pending : DB :=
          { db with vendor_payments := db.vendor_payments ++ [row],
                    nextVendorPaymentId := db.nextVendorPaymentId + 1 }
        if f.updateFault then (db, .serverError .storageFault)
        else
          let pending2 : DB :=
            { pending with vendors := pending.vendors.map (updVendor vid a d) }
          if f.commitFault then (db, .serverError .storageFault)
          else (pending2, .ok row)
      else (db, .serverError .fkViolation)
    | _, _, _ => (db, .serverError .invalidInput)

/-- Whether a `workers` row with this `id` exists — the condition checked by
the `worker_id INTEGER REFERENCES workers(id)` foreign key. -/
def workerExists (wid : Nat) (db : DB) : Bool :=
  db.workers.any (fun w => w.id = wid)

/-- Whether a `vendors` row with this `id` exists. -/
def vendorExists (vid : Nat) (db : DB) : Bool :=
  db.vendors.any (fun v => v.id = vid)

/-- `SELECT SUM(amount) FROM worker_payments WHERE worker_id = wid` over the
embedded table: the exact decimal sum of the ledger amounts owned by one
worker. -/
def sumAmountsW (wid : Nat) (l : List WorkerPaymentRow) : Int :=
  ((l.filter (fun r => r.worker_id = wid)).map (fun r => r.amount)).sum

/-- The vendor-side ledger sum. -/
def sumAmountsV (vid : Nat) (l : List VendorPaymentRow) : Int :=
  ((l.filter (fun r => r.vendor_id = vid)).map (fun r => r.amount)).sum

/-- The global aggregate invariant of the spec: for every payee row, the
coalesced `total_paid` equals the exact sum of the amounts of the ledger
entries owned by it (a `NULL` prior total counting as 0). -/
def AggInv (db : DB) : Prop :=
  (∀ w ∈ db.workers, coalesce0 w.total_paid = sumAmountsW w.id db.worker_payments) ∧
  (∀ v ∈ db.vendors, coalesce0 v.total_paid = sumAmountsV v.id db.vendor_payments)

instance (db : DB) : Decidable (AggInv db) := by
  unfold AggInv
  exact instDecidableAnd

/-- One `recordPayment` call, tagged with the payee kind it targets. -/
inductive PayOp where
  | worker (f : Faults) (idp : Option Nat) (amt dt : Option Int)
      (desc : Option String) : PayOp
  | vendor (f : Faults) (idp : Option Nat) (amt dt : Option Int)
      (desc : Option String) : PayOp
deriving DecidableEq

/-- The committed state after one `recordPayment` call. -/
def applyPayOp : PayOp → DB → DB
  | .worker f idp amt dt desc, db => (recordWorkerPayment f idp amt dt desc db).1
  | .vendor f idp amt dt desc, db => (recordVendorPayment f idp amt dt desc db).1

/-- The committed state after a sequence of `recordPayment` calls, applied in
call order. -/
def runPayOps (ops : List PayOp) (db : DB) : DB :=
  ops.foldl (fun s op => applyPayOp op s) db

/-- Stable descending insertion on `payment_date`: walk past strictly later
dates, so that among equal dates earlier table rows stay first. -/
def insertByDateDescW (r : WorkerPaymentRow) :
    List WorkerPaymentRow → List WorkerPaymentRow
  | [] => [r]
  | x :: xs =>
    if r.payment_date < x.payment_date then x :: insertByDateDescW r xs
    else r :: x :: xs

/-- `ORDER BY payment_date DESC` over the table rows, modelled as a stable
sort on the table (insertion) order.  The SQL names no secondary sort key,
so the order among equal dates is not constrained by the query; the stable
model keeps equal-dated rows in table order. -/
def sortByDateDescW : List WorkerPaymentRow → List WorkerPaymentRow
  | [] => []
  | x :: xs => insertByDateDescW x (sortByDateDescW xs)

/-- Vendor-side stable descending insertion on `payment_date`. -/
def insertByDateDescV (r : VendorPaymentRow) :
    List VendorPaymentRow → List VendorPaymentRow
  | [] => [r]
  | x :: xs =>
    if r.payment_date < x.payment_date then x :: insertByDateDescV r xs
    else r :: x :: xs

/-- Vendor-side `ORDER BY payment_date DESC` as a stable sort. -/
def sortByDateDescV : List VendorPaymentRow → List VendorPaymentRow
  | [] => []
  | x :: xs => insertByDateDescV x (sortByDateDescV xs)

/-- `GET /api/workers/:id/payments` (server.js lines 203-214):
`SELECT * FROM worker_payments WHERE worker_id = $1 ORDER BY payment_date
DESC`, answered as `res.json(result.rows)`; a non-integer `:id` makes the
query itself fail and is answered with a 500. -/
def listWorkerPayments (idp : Option Nat) (db : DB) :
    ApiResult (List WorkerPaymentRow) :=
  match idp with
  | none => .serverError .invalidInput
  | some wid =>
    .ok (sortByDateDescW (db.worker_payments.filter (fun r => r.worker_id = wid)))

/-- `GET /api/vendors/:id/payments` (server.js lines 291-302). -/
def listVendorPayments (idp : Option Nat) (db : DB) :
    ApiResult (List VendorPaymentRow) :=
  match idp with
  | none => .serverError .invalidInput
  | some vid =>
    .ok (sortByDateDescV (db.vendor_payments.filter (fun r => r.vendor_id = vid)))

/-- `POST /api/projects` (server.js lines 118-129): insert with the five
supplied columns; `spent` and `progress_percent` take their `DEFAULT 0`,
`units` is not supplied. -/
def createProject (name : String) (budget start_date : Option Int)
    (st loc : Option String) (db : DB) : DB :=
  { db with
      projects := db.projects ++
        [{ id := db.nextProjectId, name := name, location := loc,
           units := none, status := st, budget := budget, spent := some 0,
           start_date := start_date, progress_percent := some 0,
           created_at := db.now }],
      nextProjectId := db.nextProjectId + 1 }

/-- `PUT /api/projects/:id` (server.js lines 131-143): replaces exactly the
six listed columns of the matching row. -/
def updateProject (pid : Nat) (name : String) (budget spent start_date : Option Int)
    (st : Option String) (progress : Option Int) (db : DB) : DB :=
  { db with
      projects := db.projects.map (fun p =>
        if p.id = pid then
          { p with name := name, budget := budget, spent := spent,
                   start_date := start_date, status := st,
                   progress_percent := progress }
        else p) }

/-- `DELETE /api/projects/:id` (server.js lines 145-153). -/
def deleteProject (pid : Nat) (db : DB) : DB :=
  { db with projects := db.projects.filter (fun p => ¬ p.id = pid) }

/-- `POST /api/workers` (server.js lines 165-176): `total_paid` takes its
`DEFAULT 0`, `last_payment_date` starts `NULL`. -/
def createWorker (name : String) (role : Option String) (rate : Option Int)
    (contact : Option String) (db : DB) : DB :=
  { db with
      workers := db.workers ++
        [{ id := db.nextWorkerId, name := name, role := role,
           hourly_rate := rate, contact := contact, total_paid := some 0,
           last_payment_date := none, created_at := db.now }],
      nextWorkerId := db.nextWorkerId + 1 }

/-- `PUT /api/workers/:id` (server.js lines 178-190): replaces exactly
`name, role, hourly_rate, contact`; it does not touch the aggregate. -/
def updateWorkerRec (wid : Nat) (name : String) (role : Option String)
    (rate : Option Int) (contact : Option String) (db : DB) : DB :=
  { db with
      workers := db.workers.map (fun w =>
        if w.id = wid then
          { w with name := name, role := role, hourly_rate := rate,
                   contact := contact }
        else w) }

/-- `DELETE /api/workers/:id` (server.js lines 192-200) together with the
schema's `ON DELETE CASCADE` on `worker_payments.worker_id` (line 49): the
worker row and every ledger entry owned by it are removed. -/
def deleteWorker (wid : Nat) (db : DB) : DB :=
  { db with
      workers := db.workers.filter (fun w => ¬ w.id = wid),
      worker_payments := db.worker_payments.filter (fun r => ¬ r.worker_id = wid) }

/-- `POST /api/vendors` (server.js lines 253-264). -/
def createVendor (name : String) (cat contact : Option String)
    (rating : Option Int) (db : DB) : DB :=
  { db with
      vendors := db.vendors ++
        [{ id := db.nextVendorId, name := name, category := cat,
           contact := contact, rating := rating, total_paid := some 0,
           last_payment_date := none, created_at := db.now }],
      nextVendorId := db.nextVendorId + 1 }

/-- `PUT /api/vendors/:id` (server.js lines 266-278). -/
def updateVendorRec (vid : Nat) (name : String) (cat contact : Option String)
    (rating : Option Int) (db : DB) : DB :=
  { db with
      vendors := db.vendors.map (fun v =>
        if v.id = vid then
          { v with name := name, category := cat, contact := contact,
                   rating := rating }
        else v) }

/-- `DELETE /api/vendors/:id` (server.js lines 280-288) with the cascade on
`vendor_payments.vendor_id` (line 69). -/
def deleteVendor (vid : Nat) (db : DB) : DB :=
  { db with
      vendors := db.vendors.filter (fun v => ¬ v.id = vid),
      vendor_payments := db.vendor_payments.filter (fun r => ¬ r.vendor_id = vid) }

/-- `POST /api/inventory` (server.js lines 341-352). -/
def createInventory (name : String) (cat : Option String)
    (qty price minStock : Option Int) (db : DB) : DB :=
  { db with
      inventory := db.inventory ++
        [{ id := db.nextInventoryId, name := name, category := cat,
           quantity := qty, unit_price := price, min_stock := minStock,
           created_at := db.now }],
      nextInventoryId := db.nextInventoryId + 1 }

/-- `PUT /api/inventory/:id` (server.js lines 354-366). -/
def updateInventoryRec (iid : Nat) (name : String) (cat : Option String)
    (qty price minStock : Option Int) (db : DB) : DB :=
  { db with
      inventory := db.inventory.map (fun i =>
        if i.id = iid then
          { i with name := name, category := cat, quantity := qty,
                   unit_price := price, min_stock := minStock }
        else i) }

/-- `DELETE /api/inventory/:id` (server.js lines 368-376). -/
def deleteInventory (iid : Nat) (db : DB) : DB :=
  { db with inventory := db.inventory.filter (fun i => ¬ i.id = iid) }

/-- Every state-mutating request the server exposes (the `GET` endpoints are
pure reads). -/
inductive ServerOp where
  | newProject (name : String) (budget start_date : Option Int)
      (st loc : Option String) : ServerOp
  | putProject (pid : Nat) (name : String) (budget spent start_date : Option Int)
      (st : Option String) (progress : Option Int) : ServerOp
  | delProject (pid : Nat) : ServerOp
  | newWorker (name : String) (role : Option String) (rate : Option Int)
      (contact : Option String) : ServerOp
  | putWorker (wid : Nat) (name : String) (role : Option String)
      (rate : Option Int) (contact : Option String) : ServerOp
  | delWorker (wid : Nat) : ServerOp
  | payWorker (f : Faults) (idp : Option Nat) (amt dt : Option Int)
      (desc : Option String) : ServerOp
  | newVendor (name : String) (cat contact : Option String)
      (rating : Option Int) : ServerOp
  | putVendor (vid : Nat) (name : String) (cat contact : Option String)
      (rating : Option Int) : ServerOp
  | delVendor (vid : Nat) : ServerOp
  | payVendor (f : Faults) (idp : Option Nat) (amt dt : Option Int)
      (desc : Option String) : ServerOp
  | newInventory (name : String) (cat : Option String)
      (qty price minStock : Option Int) : ServerOp
  | putInventory (iid : Nat) (name : String) (cat : Option String)
      (qty price minStock : Option Int) : ServerOp
  | delInventory (iid : Nat) : ServerOp

/-- The state transition of one mutating request. -/
def applyOp : ServerOp → DB → DB
  | .newProject name budget sd st loc, db => createProject name budget sd st loc db
  | .putProject pid name budget spent sd st pr, db =>
      updateProject pid name budget spent sd st pr db
  | .delProject pid, db => deleteProject pid db
  | .newWorker name role rate contact, db => createWorker name role rate contact db
  | .putWorker wid name role rate contact, db =>
      updateWorkerRec wid name role rate contact db
  | .delWorker wid, db => deleteWorker wid db
  | .payWorker f idp amt dt desc, db => (recordWorkerPayment f idp amt dt desc db).1
  | .newVendor name cat contact rating, db => createVendor name cat contact rating db
  | .putVendor vid name cat contact rating, db =>
      updateVendorRec vid name cat contact rating db
  | .delVendor vid, db => deleteVendor vid db
  | .payVendor f idp amt dt desc, db => (recordVendorPayment f idp amt dt desc db).1
  | .newInventory name cat qty price minStock, db =>
      createInventory name cat qty price minStock db
  | .putInventory iid name cat qty price minStock, db =>
      updateInventoryRec iid name cat qty price minStock db
  | .delInventory iid, db => deleteInventory iid db

/-- The kind-independent core of a payee row: the identity plus the
denormalized aggregate, which is all the payment transaction reads or
writes. -/
structure PayeeAgg where
  id : Nat
  total_paid : Option Int
  last_payment_date : Option Int
deriving DecidableEq

/-- The kind-independent ledger row. -/
structure LedgerRow where
  id : Nat
  payee_id : Nat
  amount : Int
  payment_date : Int
  description : Option String
  created_at : Nat
deriving DecidableEq

/-- The kind-independent slice of the state that the payment transaction
touches: one payee table, one ledger table, the ledger sequence, the
clock. -/
structure GenState where
  payees : List PayeeAgg
  ledger : List LedgerRow
  nextLedgerId : Nat
  now : Nat
deriving DecidableEq

/-- The generic aggregate update row transformation. -/
def updPayee (pid : Nat) (a d : Int) (p : PayeeAgg) : PayeeAgg :=
  if p.id = pid then
    { p with total_paid := some (coalesce0 p.total_paid + a),
             last_payment_date := some d }
  else p

/-- The generic ledger row created by the insert. -/
def newLedgerRow (pid : Nat) (a d : Int) (desc : Option String)
    (s : GenState) : LedgerRow :=
  { id := s.nextLedgerId, payee_id := pid, amount := a, payment_date := d,
    description := desc, created_at := s.now }

/-- The one payment transaction script both endpoints share, written once
over the kind-independent state: `BEGIN`; insert the ledger row; apply the
aggregate update; `COMMIT`; roll back on any failure.  `recordWorkerPayment`
and `recordVendorPayment` are both claimed (and proved below) to be exactly
this function under the renaming of their tables. -/
def genericRecordPayment (f : Faults) (idp : Option Nat) (amt dt : Option Int)
    (desc : Option String) (s : GenState) : GenState × ApiResult LedgerRow :=
  if f.insertFault then (s, .serverError .storageFault)
  else
    match idp, amt, dt with
    | some pid, some a, some d =>
      if s.payees.any (fun p => p.id = pid) then
        let row : LedgerRow := newLedgerRow pid a d desc s
        let pending : GenState :=
          { s with ledger := s.ledger ++ [row],
                   nextLedgerId := s.nextLedgerId + 1 }
        if f.updateFault then (s, .serverError .storageFault)
        else
          let pending2 : GenState :=
            { pending with payees := pending.payees.map (updPayee pid a d) }
          if f.commitFault then (s, .serverError .storageFault)
          else (pending2, .ok row)
      else (s, .serverError .fkViolation)
    | _, _, _ => (s, .serverError .invalidInput)

/-- Forget the worker-specific columns of a `workers` row. -/
def projWorkerRow (w : WorkerRow) : PayeeAgg :=
  { id := w.id, total_paid := w.total_paid,
    last_payment_date := w.last_payment_date }

/-- Forget the vendor-specific columns of a `vendors` row. -/
def projVendorRow (v : VendorRow) : PayeeAgg :=
  { id := v.id, total_paid := v.total_paid,
    last_payment_date := v.last_payment_date }

/-- Rename a `worker_payments` row to the kind-independent ledger row. -/
def projWorkerPaymentRow (r : WorkerPaymentRow) : LedgerRow :=
  { id := r.id, payee_id := r.worker_id, amount := r.amount,
    payment_date := r.payment_date, description := r.description,
    created_at := r.created_at }

/-- Rename a `vendor_payments` row to the kind-independent ledger row. -/
def projVendorPaymentRow (r : VendorPaymentRow) : LedgerRow :=
  { id := r.id, payee_id := r.vendor_id, amount := r.amount,
    payment_date := r.payment_date, description := r.description,
    created_at := r.created_at }

/-- The worker slice of the state, under the kind renaming. -/
def projW (db : DB) : GenState :=
  { payees := db.workers.map projWorkerRow,
    ledger := db.worker_payments.map projWorkerPaymentRow,
    nextLedgerId := db.nextWorkerPaymentId, now := db.now }

/-- The vendor slice of the state, under the kind renaming. -/
def projV (db : DB) : GenState :=
  { payees := db.vendors.map projVendorRow,
    ledger := db.vendor_payments.map projVendorPaymentRow,
    nextLedgerId := db.nextVendorPaymentId, now := db.now }

/-- Rename the payload of a handler outcome. -/
def mapApiResult {α β : Type} (g : α → β) : ApiResult α → ApiResult β
  | .ok v => .ok (g v)
  | .serverError c => .serverError c

/-- Follows the spec's words (section 7): a `NotFound` failure is "surfaced
as a client-facing no-such-payee failure", i.e. the response carries a
client-error (4xx) status, as opposed to the server-side `StorageFault`
class.  Stated over the embedded response to compare the spec's error
taxonomy with what the code answers. -/
def specNotFoundClassified {α : Type} (r : ApiResult α) : Bool :=
  400 ≤ statusCode r && statusCode r < 500

/-- A concrete worker row used in concrete evaluations. -/
def w1 : WorkerRow :=
  { id := 1, name := "w", role := none, hourly_rate := none, contact := none,
    total_paid := some 0, last_payment_date := none, created_at := 0 }

/-- A concrete vendor row used in concrete evaluations. -/
def v1 : VendorRow :=
  { id := 1, name := "v", category := none, contact := none, rating := some 5,
    total_paid := some 0, last_payment_date := none, created_at := 0 }

/-- An empty database (the state right after `initDB`). -/
def db0 : DB :=
  { projects := [], workers := [], worker_payments := [], vendors := [],
    vendor_payments := [], inventory := [], nextProjectId := 1,
    nextWorkerId := 1, nextWorkerPaymentId := 1, nextVendorId := 1,
    nextVendorPaymentId := 1, nextInventoryId := 1, now := 5 }

/-- A database holding one worker and one vendor, both with no payments. -/
def db1 : DB :=
  { projects := [], workers := [w1], worker_payments := [], vendors := [v1],
    vendor_payments := [], inventory := [], nextProjectId := 1,
    nextWorkerId := 2, nextWorkerPaymentId := 1, nextVendorId := 2,
    nextVendorPaymentId := 1, nextInventoryId := 1, now := 5 }

/-- Two worker ledger rows with the same `payment_date`, the second inserted
later (higher serial `id`, later table position). -/
def p1 : WorkerPaymentRow :=
  { id := 1, worker_id := 1, amount := 100, payment_date := 20240210,
    description := none, created_at := 1 }

/-- The later-inserted row of the equal-date pair. -/
def p2 : WorkerPaymentRow :=
  { id := 2, worker_id := 1, amount := 200, payment_date := 20240210,
    description := none, created_at := 2 }

/-- A database where worker 1 owns two equal-dated ledger entries. -/
def db2 : DB :=
  { projects := [], workers := [w1], worker_payments := [p1, p2],
    vendors := [v1], vendor_payments := [], inventory := [],
    nextProjectId := 1, nextWorkerId := 2, nextWorkerPaymentId := 3,
    nextVendorId := 2, nextVendorPaymentId := 1, nextInventoryId := 1,
    now := 5 }

theorem updWorker_id (wid : Nat) (a d : Int) (w : WorkerRow) :
    (updWorker wid a d w).id = w.id := by
  unfold updWorker; split <;> rfl

theorem updVendor_id (vid : Nat) (a d : Int) (v : VendorRow) :
    (updVendor vid a d v).id = v.id := by
  unfold updVendor; split <;> rfl

theorem updWorker_eq_of_ne (wid : Nat) (a d : Int) (w : WorkerRow)
    (h : ¬ w.id = wid) : updWorker wid a d w = w := by
  unfold updWorker; simp [h]

theorem updVendor_eq_of_ne (vid : Nat) (a d : Int) (v : VendorRow)
    (h : ¬ v.id = vid) : updVendor vid a d v = v := by
  unfold updVendor; simp [h]

/-- Complete case analysis of the worker payment transaction: either some
statement failed, `ROLLBACK` ran and the committed state is untouched, or
the whole unit committed and the state carries exactly the new ledger row,
the bumped sequence, and the aggregate update. -/
theorem rwp_cases (f : Faults) (idp : Option Nat) (amt dt : Option Int)
    (desc : Option String) (db : DB) :
    ((recordWorkerPayment f idp amt dt desc db).1 = db ∧
      ∃ c, (recordWorkerPayment f idp amt dt desc db).2 = .serverError c) ∨
    (∃ wid a d, idp = some wid ∧ amt = some a ∧ dt = some d ∧
      recordWorkerPayment f idp amt dt desc db =
        ({ db with
            worker_payments := db.worker_payments ++ [newWorkerPaymentRow wid a d desc db],
            nextWorkerPaymentId := db.nextWorkerPaymentId + 1,
            workers := db.workers.map (updWorker wid a d) },
         .ok (newWorkerPaymentRow wid a d desc db))) := by
  unfold recordWorkerPayment
  split
  · exact Or.inl ⟨rfl, _, rfl⟩
  · split
    · split
      · split
        · exact Or.inl ⟨rfl, _, rfl⟩
        · split
          · exact Or.inl ⟨rfl, _, rfl⟩
          · exact Or.inr ⟨_, _, _, rfl, rfl, rfl, rfl⟩
      · exact Or.inl ⟨rfl, _, rfl⟩
    · exact Or.inl ⟨rfl, _, rfl⟩

/-- Complete case analysis of the vendor payment transaction. -/
theorem rvp_cases (f : Faults) (idp : Option Nat) (amt dt : Option Int)
    (desc : Option String) (db : DB) :
    ((recordVendorPayment f idp amt dt desc db).1 = db ∧
      ∃ c, (recordVendorPayment f idp amt dt desc db).2 = .serverError c) ∨
    (∃ vid a d, idp = some vid ∧ amt = some a ∧ dt = some d ∧
      recordVendorPayment f idp amt dt desc db =
        ({ db with
            vendor_payments := db.vendor_payments ++ [newVendorPaymentRow vid a d desc db],
            nextVendorPaymentId := db.nextVendorPaymentId + 1,
            vendors := db.vendors.map (updVendor vid a d) },
         .ok (newVendorPaymentRow vid a d desc db))) := by
  unfold recordVendorPayment
  split
  · exact Or.inl ⟨rfl, _, rfl⟩
  · split
    · split
      · split
        · exact Or.inl ⟨rfl, _, rfl⟩
        · split
          · exact Or.inl ⟨rfl, _, rfl⟩
          · exact Or.inr ⟨_, _, _, rfl, rfl, rfl, rfl⟩
      · exact Or.inl ⟨rfl, _, rfl⟩
    · exact Or.inl ⟨rfl, _, rfl⟩

/-- The fault-free transaction against an existing worker commits. -/
theorem recordWorkerPayment_success (wid : Nat) (a d : Int)
    (desc : Option String) (db : DB) (h : workerExists wid db = true) :
    recordWorkerPayment noFaults (some wid) (some a) (some d) desc db =
      ({ db with
          worker_payments := db.worker_payments ++ [newWorkerPaymentRow wid a d desc db],
          nextWorkerPaymentId := db.nextWorkerPaymentId + 1,
          workers := db.workers.map (updWorker wid a d) },
       .ok (newWorkerPaymentRow wid a d desc db)) := by
  unfold workerExists at h
  unfold recordWorkerPayment noFaults
  simp [h]

/-- The fault-free transaction against an existing vendor commits. -/
theorem recordVendorPayment_success (vid : Nat) (a d : Int)
    (desc : Option String) (db : DB) (h : vendorExists vid db = true) :
    recordVendorPayment noFaults (some vid) (some a) (some d) desc db =
      ({ db with
          vendor_payments := db.vendor_payments ++ [newVendorPaymentRow vid a d desc db],
          nextVendorPaymentId := db.nextVendorPaymentId + 1,
          vendors := db.vendors.map (updVendor vid a d) },
       .ok (newVendorPaymentRow vid a d desc db)) := by
  unfold vendorExists at h
  unfold recordVendorPayment noFaults
  simp [h]

/-- The insert's foreign key rejects a missing worker; the transaction rolls
back to exactly the pre-state. -/
theorem recordWorkerPayment_notFound (wid : Nat) (a d : Int)
    (desc : Option String) (db : DB) (h : workerExists wid db = false) :
    recordWorkerPayment noFaults (some wid) (some a) (some d) desc db =
      (db, .serverError .fkViolation) := by
  unfold workerExists at h
  unfold recordWorkerPayment noFaults
  simp [h]

/-- The insert's foreign key rejects a missing vendor. -/
theorem recordVendorPayment_notFound (vid : Nat) (a d : Int)
    (desc : Option String) (db : DB) (h : vendorExists vid db = false) :
    recordVendorPayment noFaults (some vid) (some a) (some d) desc db =
      (db, .serverError .fkViolation) := by
  unfold vendorExists at h
  unfold recordVendorPayment noFaults
  simp [h]

/-- The aggregate update does not create or delete worker rows nor change
ids, so existence of a worker id survives it. -/
theorem any_id_map_updWorker (l : List WorkerRow) (wid a d : _) (wid' : Nat) :
    (l.map (updWorker wid a d)).any (fun w => w.id = wid') =
      l.any (fun w => w.id = wid') := by
  induction l with
  | nil => rfl
  | cons x xs ih => simp [List.any_cons, ih, updWorker_id]

/-- Vendor-side id preservation under the aggregate update. -/
theorem any_id_map_updVendor (l : List VendorRow) (vid a d : _) (vid' : Nat) :
    (l.map (updVendor vid a d)).any (fun v => v.id = vid') =
      l.any (fun v => v.id = vid') := by
  induction l with
  | nil => rfl
  | cons x xs ih => simp [List.any_cons, ih, updVendor_id]

/-- A row of the updated worker table that has the paid id carries the paid
date as `last_payment_date`. -/
theorem last_of_mem_map_updWorker {wid : Nat} {a d : Int} {l : List WorkerRow}
    {w : WorkerRow} (hw : w ∈ l.map (updWorker wid a d)) (hid : w.id = wid) :
    w.last_payment_date = some d := by
  obtain ⟨w0, _, rfl⟩ := List.mem_map.1 hw
  unfold updWorker at hid ⊢
  by_cases h0 : w0.id = wid
  · simp [h0]
  · simp [h0] at hid

/-- Vendor-side version of `last_of_mem_map_updWorker`. -/
theorem last_of_mem_map_updVendor {vid : Nat} {a d : Int} {l : List VendorRow}
    {v : VendorRow} (hv : v ∈ l.map (updVendor vid a d)) (hid : v.id = vid) :
    v.last_payment_date = some d := by
  obtain ⟨v0, _, rfl⟩ := List.mem_map.1 hv
  unfold updVendor at hid ⊢
  by_cases h0 : v0.id = vid
  · simp [h0]
  · simp [h0] at hid

/-- C1 — Atomicity of `recordPayment`: for every fault pattern and every
input, either the request fails and the committed state is exactly the
pre-state (no ledger row survives a failed attempt), or it succeeds and both
the new ledger entry and the aggregate update land; this holds for the
worker and the vendor path alike. -/
theorem recordPayment_atomic (f : Faults) (idp : Option Nat)
    (amt dt : Option Int) (desc : Option String) (db : DB) :
    (((recordWorkerPayment f idp amt dt desc db).1 = db ∧
        ∃ c, (recordWorkerPayment f idp amt dt desc db).2 = .serverError c) ∨
      (∃ wid a d row, idp = some wid ∧ amt = some a ∧ dt = some d ∧
        (recordWorkerPayment f idp amt dt desc db).2 = .ok row ∧
        (recordWorkerPayment f idp amt dt desc db).1.worker_payments =
          db.worker_payments ++ [row] ∧
        (recordWorkerPayment f idp amt dt desc db).1.workers =
          db.workers.map (updWorker wid a d))) ∧
    (((recordVendorPayment f idp amt dt desc db).1 = db ∧
        ∃ c, (recordVendorPayment f idp amt dt desc db).2 = .serverError c) ∨
      (∃ vid a d row, idp = some vid ∧ amt = some a ∧ dt = some d ∧
        (recordVendorPayment f idp amt dt desc db).2 = .ok row ∧
        (recordVendorPayment f idp amt dt desc db).1.vendor_payments =
          db.vendor_payments ++ [row] ∧
        (recordVendorPayment f idp amt dt desc db).1.vendors =
          db.vendors.map (updVendor vid a d))) := by
  constructor
  · unfold recordWorkerPayment
    split
    · exact Or.inl ⟨rfl, _, rfl⟩
    · split
      · split
        · split
          · exact Or.inl ⟨rfl, _, rfl⟩
          · split
            · exact Or.inl ⟨rfl, _, rfl⟩
            · exact Or.inr ⟨_, _, _, _, rfl, rfl, rfl, rfl, rfl, rfl⟩
        · exact Or.inl ⟨rfl, _, rfl⟩
      · exact Or.inl ⟨rfl, _, rfl⟩
  · unfold recordVendorPayment
    split
    · exact Or.inl ⟨rfl, _, rfl⟩
    · split
      · split
        · split
          · exact Or.inl ⟨rfl, _, rfl⟩
          · split
            · exact Or.inl ⟨rfl, _, rfl⟩
            · exact Or.inr ⟨_, _, _, _, rfl, rfl, rfl, rfl, rfl, rfl⟩
        · exact Or.inl ⟨rfl, _, rfl⟩
      · exact Or.inl ⟨rfl, _, rfl⟩

/-- C3 — `last_payment_date` is last-write-wins by call order: after two
successful `recordPayment` calls with dates `d1` then `d2`, the payee's
`last_payment_date` is `d2`, whatever the order relation between `d1` and
`d2` — the update writes the submitted date unconditionally, with no date
comparison.  Instantiating `d1 := 2024-03-01, d2 := 2024-01-01` gives the
spec's scenario, where the result is the second (not the maximum) date. -/
theorem lastPaymentDate_last_write (db : DB) (wid vid : Nat) (a1 a2 d1 d2 : Int)
    (desc1 desc2 : Option String) :
    (workerExists wid db = true →
      ∀ w ∈ ((recordWorkerPayment noFaults (some wid) (some a2) (some d2) desc2
          ((recordWorkerPayment noFaults (some wid) (some a1) (some d1) desc1
            db).1)).1).workers,
        w.id = wid → w.last_payment_date = some d2) ∧
    (vendorExists vid db = true →
      ∀ v ∈ ((recordVendorPayment noFaults (some vid) (some a2) (some d2) desc2
          ((recordVendorPayment noFaults (some vid) (some a1) (some d1) desc1
            db).1)).1).vendors,
        v.id = vid → v.last_payment_date = some d2) := by
  constructor
  · intro h w hw hid
    rw [recordWorkerPayment_success wid a1 d1 desc1 db h] at hw
    have h2 : workerExists wid
        ({ db with
            worker_payments := db.worker_payments ++ [newWorkerPaymentRow wid a1 d1 desc1 db],
            nextWorkerPaymentId := db.nextWorkerPaymentId + 1,
            workers := db.workers.map (updWorker wid a1 d1) } : DB) = true := by
      unfold workerExists at h ⊢
      show (db.workers.map (updWorker wid a1 d1)).any (fun w => w.id = wid) = true
      rw [any_id_map_updWorker]
      exact h
    rw [recordWorkerPayment_success wid a2 d2 desc2 _ h2] at hw
    exact last_of_mem_map_updWorker hw hid
  · intro h v hv hid
    rw [recordVendorPayment_success vid a1 d1 desc1 db h] at hv
    have h2 : vendorExists vid
        ({ db with
            vendor_payments := db.vendor_payments ++ [newVendorPaymentRow vid a1 d1 desc1 db],
            nextVendorPaymentId := db.nextVendorPaymentId + 1,
            vendors := db.vendors.map (updVendor vid a1 d1) } : DB) = true := by
      unfold vendorExists at h ⊢
      show (db.vendors.map (updVendor vid a1 d1)).any (fun v => v.id = vid) = true
      rw [any_id_map_updVendor]
      exact h
    rw [recordVendorPayment_success vid a2 d2 desc2 _ h2] at hv
    exact last_of_mem_map_updVendor hv hid

/-- Witness for C3: worker 1 of `db1` paid with dates 2024-03-01 then
2024-01-01 (call order) ends with `last_payment_date` 2024-01-01. -/
theorem lastPaymentDate_last_write_witness :
    (updWorker 1 100 20240101 (updWorker 1 200 20240301 w1)).last_payment_date =
      some 20240101 := by
  have h := (lastPaymentDate_last_write db1 1 1 200 100 20240301 20240101
    none none).1 (by decide)
  exact h _ (by decide) (by decide)

theorem sumAmountsW_append (wid : Nat) (l : List WorkerPaymentRow)
    (r : WorkerPaymentRow) :
    sumAmountsW wid (l ++ [r]) =
      sumAmountsW wid l + (if r.worker_id = wid then r.amount else 0) := by
  by_cases hr : r.worker_id = wid <;>
    simp [sumAmountsW, List.filter_append, hr]

theorem sumAmountsV_append (vid : Nat) (l : List VendorPaymentRow)
    (r : VendorPaymentRow) :
    sumAmountsV vid (l ++ [r]) =
      sumAmountsV vid l + (if r.vendor_id = vid then r.amount else 0) := by
  by_cases hr : r.vendor_id = vid <;>
    simp [sumAmountsV, List.filter_append, hr]

/-- One `recordPayment` call — committed or rolled back, worker or vendor —
preserves the aggregate invariant. -/
theorem aggInv_applyPayOp (op : PayOp) (db : DB) (h : AggInv db) :
    AggInv (applyPayOp op db) := by
  cases op with
  | worker f idp amt dt desc =>
    show AggInv (recordWorkerPayment f idp amt dt desc db).1
    rcases rwp_cases f idp amt dt desc db with ⟨he, -⟩ | ⟨wid, a, d, -, -, -, he⟩
    · rw [he]; exact h
    · rw [he]
      constructor
      · intro w hw
        obtain ⟨w0, hw0, rfl⟩ := List.mem_map.1 hw
        have hsum := h.1 w0 hw0
        by_cases h0 : w0.id = wid
        · have hupd : updWorker wid a d w0 =
              { w0 with total_paid := some (coalesce0 w0.total_paid + a),
                        last_payment_date := some d } := by
            unfold updWorker
            rw [if_pos h0]
          rw [hupd, sumAmountsW_append]
          simp [newWorkerPaymentRow, coalesce0, h0]
          rw [← h0]
          exact hsum
        · rw [updWorker_eq_of_ne wid a d w0 h0]
          show coalesce0 w0.total_paid =
            sumAmountsW w0.id (db.worker_payments ++ [newWorkerPaymentRow wid a d desc db])
          rw [sumAmountsW_append]
          have : ¬ (newWorkerPaymentRow wid a d desc db).worker_id = w0.id := by
            simp [newWorkerPaymentRow]
            intro hc
            exact absurd hc.symm h0
          simp [this, hsum]
      · intro v hv
        exact h.2 v hv
  | vendor f idp amt dt desc =>
    show AggInv (recordVendorPayment f idp amt dt desc db).1
    rcases rvp_cases f idp amt dt desc db with ⟨he, -⟩ | ⟨vid, a, d, -, -, -, he⟩
    · rw [he]; exact h
    · rw [he]
      constructor
      · intro w hw
        exact h.1 w hw
      · intro v hv
        obtain ⟨v0, hv0, rfl⟩ := List.mem_map.1 hv
        have hsum := h.2 v0 hv0
        by_cases h0 : v0.id = vid
        · have hupd : updVendor vid a d v0 =
              { v0 with total_paid := some (coalesce0 v0.total_paid + a),
                        last_payment_date := some d } := by
            unfold updVendor
            rw [if_pos h0]
          rw [hupd, sumAmountsV_append]
          simp [newVendorPaymentRow, coalesce0, h0]
          rw [← h0]
          exact hsum
        · rw [updVendor_eq_of_ne vid a d v0 h0]
          show coalesce0 v0.total_paid =
            sumAmountsV v0.id (db.vendor_payments ++ [newVendorPaymentRow vid a d desc db])
          rw [sumAmountsV_append]
          have : ¬ (newVendorPaymentRow vid a d desc db).vendor_id = v0.id := by
            simp [newVendorPaymentRow]
            intro hc
            exact absurd hc.symm h0
          simp [this, hsum]

/-- C2 — Aggregate correctness: starting from any state satisfying the
aggregate invariant (every payee's coalesced `total_paid` equals the exact
integer-cent — hence decimal-exact, drift-free — sum of the amounts of the
ledger entries it owns, a `NULL` prior total counting as 0), any sequence of
`recordPayment` calls, in call order, re-establishes the invariant; failed
calls leave the state untouched, so in particular after any sequence of
successful calls every payee's `total_paid` equals the sum over its
entries. -/
theorem total_paid_eq_ledger_sum (ops : List PayOp) (db : DB) (h : AggInv db) :
    AggInv (runPayOps ops db) := by
  induction ops generalizing db with
  | nil => exact h
  | cons op ops ih => exact ih _ (aggInv_applyPayOp op db h)

/-- A concrete two-call schedule: pay worker 1 then vendor 1. -/
def opsA : List PayOp :=
  [.worker noFaults (some 1) (some 50000) (some 20240210) (some "advance"),
   .vendor noFaults (some 1) (some 25050) (some 20240215) none]

/-- Witness for C2 at a concrete state and schedule. -/
theorem total_paid_eq_ledger_sum_witness : AggInv (runPayOps opsA db1) :=
  total_paid_eq_ledger_sum opsA db1 (by decide)

/-- Counterexample for C4: on the empty database, recording a payment for
the non-existent worker 1 answers the caught foreign-key violation as
`res.status(500).json({error: err.message})` — a server-error (500)
response, not a client-facing NotFound-classified (4xx) failure; there is no
NotFound classification anywhere in the handler. -/
theorem missing_payee_counterexample :
    (recordWorkerPayment noFaults (some 1) (some 100) (some 20240210) none
      db0).2 = .serverError .fkViolation ∧
    statusCode (recordWorkerPayment noFaults (some 1) (some 100)
      (some 20240210) none db0).2 = 500 ∧
    specNotFoundClassified (recordWorkerPayment noFaults (some 1) (some 100)
      (some 20240210) none db0).2 = false := by
  decide

/-- C4 (amended) — a `recordPayment` against a payeeId that references no
existing payee fails (the insert's foreign key rejects it), the error is
surfaced as a 500 server error wrapping the FK violation rather than a
NotFound-classified client failure, and the whole state — in particular the
ledger and every entry count — is exactly the pre-state. -/
theorem missing_payee_rejected (db : DB) (wid vid : Nat) (a d : Int)
    (desc : Option String) :
    (workerExists wid db = false →
      recordWorkerPayment noFaults (some wid) (some a) (some d) desc db =
        (db, .serverError .fkViolation)) ∧
    (vendorExists vid db = false →
      recordVendorPayment noFaults (some vid) (some a) (some d) desc db =
        (db, .serverError .fkViolation)) := by
  exact ⟨recordWorkerPayment_notFound wid a d desc db,
         recordVendorPayment_notFound vid a d desc db⟩

/-- Witness for C4 on the empty database. -/
theorem missing_payee_rejected_witness :
    recordWorkerPayment noFaults (some 1) (some 100) (some 20240210) none db0 =
      (db0, .serverError .fkViolation) ∧
    recordVendorPayment noFaults (some 1) (some 100) (some 20240210) none db0 =
      (db0, .serverError .fkViolation) :=
  ⟨(missing_payee_rejected db0 1 1 100 20240210 none).1 (by decide),
   (missing_payee_rejected db0 1 1 100 20240210 none).2 (by decide)⟩

/-- Counterexample for C5: `amount = -50.00` is a number that is not
positive, yet the call does not fail with `InvalidArgument` — it succeeds,
persists a ledger entry for the negative amount and changes the stored
state.  No validation of amount, date or id happens before storage is
engaged. -/
theorem nonpositive_amount_accepted :
    (recordWorkerPayment noFaults (some 1) (some (-5000)) (some 20240210)
      none db1).2 = .ok (newWorkerPaymentRow 1 (-5000) 20240210 none db1) ∧
    ¬ (recordWorkerPayment noFaults (some 1) (some (-5000)) (some 20240210)
      none db1).1 = db1 := by
  decide

/-- C5 (amended) — the handlers perform no input validation of their own:
a request field that fails to parse at the SQL layer (modelled `none`) is
rejected only by the `INSERT` inside the already-begun transaction, surfaced
as a 500 `invalidInput` error with the state rolled back unchanged — not as
a pre-storage `InvalidArgument`; and a syntactically numeric amount is
accepted whatever its sign whenever the payee exists. -/
theorem no_prestorage_validation (idp : Option Nat) (amt dt : Option Int)
    (desc : Option String) (db : DB) (wid vid : Nat) (a d : Int) :
    ((idp = none ∨ amt = none ∨ dt = none) →
      recordWorkerPayment noFaults idp amt dt desc db =
          (db, .serverError .invalidInput) ∧
        recordVendorPayment noFaults idp amt dt desc db =
          (db, .serverError .invalidInput)) ∧
    (workerExists wid db = true →
      (recordWorkerPayment noFaults (some wid) (some a) (some d) desc db).2 =
        .ok (newWorkerPaymentRow wid a d desc db)) ∧
    (vendorExists vid db = true →
      (recordVendorPayment noFaults (some vid) (some a) (some d) desc db).2 =
        .ok (newVendorPaymentRow vid a d desc db)) := by
  refine ⟨?_, ?_, ?_⟩
  · intro h
    rcases h with h | h | h
    · subst h
      exact ⟨by cases amt <;> cases dt <;> rfl, by cases amt <;> cases dt <;> rfl⟩
    · subst h
      exact ⟨by cases idp <;> cases dt <;> rfl, by cases idp <;> cases dt <;> rfl⟩
    · subst h
      exact ⟨by cases idp <;> cases amt <;> rfl, by cases idp <;> cases amt <;> rfl⟩
  · intro h
    rw [recordWorkerPayment_success wid a d desc db h]
  · intro h
    rw [recordVendorPayment_success vid a d desc db h]

/-- Witness for C5: a malformed amount is rejected only with a 500 and an
unchanged state, and a negative amount is accepted outright. -/
theorem no_prestorage_validation_witness :
    recordWorkerPayment noFaults (some 1) none (some 20240210) none db1 =
      (db1, .serverError .invalidInput) ∧
    (recordWorkerPayment noFaults (some 1) (some (-50)) (some 20240210) none
      db1).2 = .ok (newWorkerPaymentRow 1 (-50) 20240210 none db1) :=
  ⟨((no_prestorage_validation (some 1) none (some 20240210) none db1 1 1
      (-50) 20240210).1 (Or.inr (Or.inl rfl))).1,
   (no_prestorage_validation (some 1) (some (-50)) (some 20240210) none db1 1 1
      (-50) 20240210).2.1 (by decide)⟩

theorem mem_insertByDateDescW {r y : WorkerPaymentRow}
    {l : List WorkerPaymentRow} :
    y ∈ insertByDateDescW r l ↔ y = r ∨ y ∈ l := by
  induction l with
  | nil => simp [insertByDateDescW]
  | cons x xs ih =>
    unfold insertByDateDescW
    split
    · simp only [List.mem_cons, ih]
      tauto
    · simp only [List.mem_cons]

theorem mem_insertByDateDescV {r y : VendorPaymentRow}
    {l : List VendorPaymentRow} :
    y ∈ insertByDateDescV r l ↔ y = r ∨ y ∈ l := by
  induction l with
  | nil => simp [insertByDateDescV]
  | cons x xs ih =>
    unfold insertByDateDescV
    split
    · simp only [List.mem_cons, ih]
      tauto
    · simp only [List.mem_cons]

theorem pairwise_insertByDateDescW (r : WorkerPaymentRow)
    (l : List WorkerPaymentRow)
    (h : l.Pairwise (fun a b => b.payment_date ≤ a.payment_date)) :
    (insertByDateDescW r l).Pairwise
      (fun a b => b.payment_date ≤ a.payment_date) := by
  induction l with
  | nil => simp [insertByDateDescW]
  | cons x xs ih =>
    rw [List.pairwise_cons] at h
    unfold insertByDateDescW
    split
    · rename_i hlt
      rw [List.pairwise_cons]
      refine ⟨?_, ih h.2⟩
      intro y hy
      rcases mem_insertByDateDescW.1 hy with rfl | hy
      · exact le_of_lt hlt
      · exact h.1 y hy
    · rename_i hge
      rw [List.pairwise_cons]
      refine ⟨?_, List.pairwise_cons.2 h⟩
      intro y hy
      rcases List.mem_cons.1 hy with rfl | hy
      · exact le_of_not_lt hge
      · exact le_trans (h.1 y hy) (le_of_not_lt hge)

theorem pairwise_insertByDateDescV (r : VendorPaymentRow)
    (l : List VendorPaymentRow)
    (h : l.Pairwise (fun a b => b.payment_date ≤ a.payment_date)) :
    (insertByDateDescV r l).Pairwise
      (fun a b => b.payment_date ≤ a.payment_date) := by
  induction l with
  | nil => simp [insertByDateDescV]
  | cons x xs ih =>
    rw [List.pairwise_cons] at h
    unfold insertByDateDescV
    split
    · rename_i hlt
      rw [List.pairwise_cons]
      refine ⟨?_, ih h.2⟩
      intro y hy
      rcases mem_insertByDateDescV.1 hy with rfl | hy
      · exact le_of_lt hlt
      · exact h.1 y hy
    · rename_i hge
      rw [List.pairwise_cons]
      refine ⟨?_, List.pairwise_cons.2 h⟩
      intro y hy
      rcases List.mem_cons.1 hy with rfl | hy
      · exact le_of_not_lt hge
      · exact le_trans (h.1 y hy) (le_of_not_lt hge)

theorem perm_insertByDateDescW (r : WorkerPaymentRow)
    (l : List WorkerPaymentRow) :
    List.Perm (insertByDateDescW r l) (r :: l) := by
  induction l with
  | nil => exact List.Perm.refl _
  | cons x xs ih =>
    unfold insertByDateDescW
    split
    · exact (ih.cons x).trans (List.Perm.swap _ _ _)
    · exact List.Perm.refl _

theorem perm_insertByDateDescV (r : VendorPaymentRow)
    (l : List VendorPaymentRow) :
    List.Perm (insertByDateDescV r l) (r :: l) := by
  induction l with
  | nil => exact List.Perm.refl _
  | cons x xs ih =>
    unfold insertByDateDescV
    split
    · exact (ih.cons x).trans (List.Perm.swap _ _ _)
    · exact List.Perm.refl _

theorem pairwise_sortByDateDescW (l : List WorkerPaymentRow) :
    (sortByDateDescW l).Pairwise
      (fun a b => b.payment_date ≤ a.payment_date) := by
  induction l with
  | nil => simp [sortByDateDescW]
  | cons x xs ih => exact pairwise_insertByDateDescW x _ ih

theorem pairwise_sortByDateDescV (l : List VendorPaymentRow) :
    (sortByDateDescV l).Pairwise
      (fun a b => b.payment_date ≤ a.payment_date) := by
  induction l with
  | nil => simp [sortByDateDescV]
  | cons x xs ih => exact pairwise_insertByDateDescV x _ ih

theorem perm_sortByDateDescW (l : List WorkerPaymentRow) :
    List.Perm (sortByDateDescW l) l := by
  induction l with
  | nil => exact List.Perm.refl _
  | cons x xs ih => exact (perm_insertByDateDescW x _).trans (ih.cons x)

theorem perm_sortByDateDescV (l : List VendorPaymentRow) :
    List.Perm (sortByDateDescV l) l := by
  induction l with
  | nil => exact List.Perm.refl _
  | cons x xs ih => exact (perm_insertByDateDescV x _).trans (ih.cons x)

/-- Counterexample for C6: worker 1 of `db2` owns two entries with equal
`payment_date`, inserted as `p1` then `p2`.  `ORDER BY payment_date DESC`
names no tie-break key, so the query does not order ties by insertion order
descending: the listing (stable in table order) answers `[p1, p2]`, not the
claimed most-recently-inserted-first `[p2, p1]`. -/
theorem payment_tie_order_counterexample :
    listWorkerPayments (some 1) db2 = .ok [p1, p2] ∧
    ¬ listWorkerPayments (some 1) db2 = .ok [p2, p1] := by
  decide

/-- C6 (amended) — listing a payee's payments always succeeds with a
sequence of exactly that payee's entries sorted by `payment_date`
descending; when the payee has no entries the result is the empty sequence
(`ok []`, not an error, the permutation of the empty filter).  The order
among equal dates is left unspecified by the query (no secondary `ORDER BY`
key); it is not insertion-order-descending. -/
theorem list_payments_date_sorted (db : DB) (wid vid : Nat) :
    (∃ l, listWorkerPayments (some wid) db = .ok l ∧
      l.Pairwise (fun a b => b.payment_date ≤ a.payment_date) ∧
      List.Perm l (db.worker_payments.filter (fun r => r.worker_id = wid))) ∧
    (∃ l, listVendorPayments (some vid) db = .ok l ∧
      l.Pairwise (fun a b => b.payment_date ≤ a.payment_date) ∧
      List.Perm l (db.vendor_payments.filter (fun r => r.vendor_id = vid))) :=
  ⟨⟨_, rfl, pairwise_sortByDateDescW _, perm_sortByDateDescW _⟩,
   ⟨_, rfl, pairwise_sortByDateDescV _, perm_sortByDateDescV _⟩⟩

theorem filter_filter_not {α : Type} (p : α → Prop) [DecidablePred p]
    (l : List α) :
    (l.filter (fun a => ¬ p a)).filter (fun a => p a) = [] := by
  induction l with
  | nil => rfl
  | cons x xs ih => by_cases h : p x <;> simp [List.filter_cons, h, ih]

/-- C7 — Cascading delete leaves no orphans: after deleting payee P, no
ledger entry owned by P remains in the table (the `ON DELETE CASCADE`
removes them with the payee row), and listing the deleted payee's payments
answers the empty sequence — never stale rows. -/
theorem cascade_delete_no_orphans (db : DB) (wid vid : Nat) :
    ((deleteWorker wid db).worker_payments.filter
        (fun r => r.worker_id = wid) = [] ∧
      listWorkerPayments (some wid) (deleteWorker wid db) = .ok []) ∧
    ((deleteVendor vid db).vendor_payments.filter
        (fun r => r.vendor_id = vid) = [] ∧
      listVendorPayments (some vid) (deleteVendor vid db) = .ok []) := by
  have hw := filter_filter_not (fun r : WorkerPaymentRow => r.worker_id = wid)
    db.worker_payments
  have hv := filter_filter_not (fun r : VendorPaymentRow => r.vendor_id = vid)
    db.vendor_payments
  refine ⟨⟨hw, ?_⟩, ⟨hv, ?_⟩⟩
  · show ApiResult.ok (sortByDateDescW ((db.worker_payments.filter
      (fun r => ¬ r.worker_id = wid)).filter (fun r => r.worker_id = wid))) =
        ApiResult.ok ([] : List WorkerPaymentRow)
    rw [hw]
    rfl
  · show ApiResult.ok (sortByDateDescV ((db.vendor_payments.filter
      (fun r => ¬ r.vendor_id = vid)).filter (fun r => r.vendor_id = vid))) =
        ApiResult.ok ([] : List VendorPaymentRow)
    rw [hv]
    rfl

/-- C8 — Ledger immutability: across every state-mutating request the server
exposes, each ledger table either is left exactly as it was (every existing
row with all its fields intact), gains exactly one appended row — and that
only through the corresponding payment-recording endpoint — or loses exactly
the rows owned by a deleted payee through the cascade of that payee's
`DELETE` endpoint.  No operation rewrites a field of an existing ledger
row. -/
theorem ledger_immutable (op : ServerOp) (db : DB) :
    ((applyOp op db).worker_payments = db.worker_payments ∨
      (∃ f idp amt dt desc row, op = .payWorker f idp amt dt desc ∧
        (applyOp op db).worker_payments = db.worker_payments ++ [row]) ∨
      (∃ wid, op = .delWorker wid ∧
        (applyOp op db).worker_payments =
          db.worker_payments.filter (fun r => ¬ r.worker_id = wid))) ∧
    ((applyOp op db).vendor_payments = db.vendor_payments ∨
      (∃ f idp amt dt desc row, op = .payVendor f idp amt dt desc ∧
        (applyOp op db).vendor_payments = db.vendor_payments ++ [row]) ∨
      (∃ vid, op = .delVendor vid ∧
        (applyOp op db).vendor_payments =
          db.vendor_payments.filter (fun r => ¬ r.vendor_id = vid))) := by
  cases op with
  | payWorker f idp amt dt desc =>
    constructor
    · rcases rwp_cases f idp amt dt desc db with ⟨he, -⟩ | ⟨wid, a, d, -, -, -, he⟩
      · left
        show (recordWorkerPayment f idp amt dt desc db).1.worker_payments = _
        rw [he]
      · right; left
        refine ⟨f, idp, amt, dt, desc, newWorkerPaymentRow wid a d desc db, rfl, ?_⟩
        show (recordWorkerPayment f idp amt dt desc db).1.worker_payments = _
        rw [he]
    · left
      rcases rwp_cases f idp amt dt desc db with ⟨he, -⟩ | ⟨wid, a, d, -, -, -, he⟩
      · show (recordWorkerPayment f idp amt dt desc db).1.vendor_payments = _
        rw [he]
      · show (recordWorkerPayment f idp amt dt desc db).1.vendor_payments = _
        rw [he]
  | payVendor f idp amt dt desc =>
    constructor
    · left
      rcases rvp_cases f idp amt dt desc db with ⟨he, -⟩ | ⟨vid, a, d, -, -, -, he⟩
      · show (recordVendorPayment f idp amt dt desc db).1.worker_payments = _
        rw [he]
      · show (recordVendorPayment f idp amt dt desc db).1.worker_payments = _
        rw [he]
    · rcases rvp_cases f idp amt dt desc db with ⟨he, -⟩ | ⟨vid, a, d, -, -, -, he⟩
      · left
        show (recordVendorPayment f idp amt dt desc db).1.vendor_payments = _
        rw [he]
      · right; left
        refine ⟨f, idp, amt, dt, desc, newVendorPaymentRow vid a d desc db, rfl, ?_⟩
        show (recordVendorPayment f idp amt dt desc db).1.vendor_payments = _
        rw [he]
  | delWorker wid => exact ⟨Or.inr (Or.inr ⟨wid, rfl, rfl⟩), Or.inl rfl⟩
  | delVendor vid => exact ⟨Or.inl rfl, Or.inr (Or.inr ⟨vid, rfl, rfl⟩)⟩
  | newProject name budget sd st loc => exact ⟨Or.inl rfl, Or.inl rfl⟩
  | putProject pid name budget spent sd st pr => exact ⟨Or.inl rfl, Or.inl rfl⟩
  | delProject pid => exact ⟨Or.inl rfl, Or.inl rfl⟩
  | newWorker name role rate contact => exact ⟨Or.inl rfl, Or.inl rfl⟩
  | putWorker wid name role rate contact => exact ⟨Or.inl rfl, Or.inl rfl⟩
  | newVendor name cat contact rating => exact ⟨Or.inl rfl, Or.inl rfl⟩
  | putVendor vid name cat contact rating => exact ⟨Or.inl rfl, Or.inl rfl⟩
  | newInventory name cat qty price minStock => exact ⟨Or.inl rfl, Or.inl rfl⟩
  | putInventory iid name cat qty price minStock => exact ⟨Or.inl rfl, Or.inl rfl⟩
  | delInventory iid => exact ⟨Or.inl rfl, Or.inl rfl⟩

/-- C10 — Frame effect of a successful `recordPayment` for payee P: the
committed state appends exactly the returned row to P's ledger table, maps
P's payee table through the aggregate update (which touches only
`total_paid` and `last_payment_date` of the row with P's id — every
non-aggregate field and every row with a different id is unchanged, as the
final conjuncts state row-wise), and leaves every other table — the other
payee kind, its ledger, projects, inventory — exactly as it was. -/
theorem payment_frame_effect (f : Faults) (pid : Nat) (a d : Int)
    (desc : Option String) (db : DB) (wrow : WorkerPaymentRow)
    (vrow : VendorPaymentRow) :
    ((recordWorkerPayment f (some pid) (some a) (some d) desc db).2 = .ok wrow →
      (recordWorkerPayment f (some pid) (some a) (some d) desc db).1.worker_payments =
          db.worker_payments ++ [wrow] ∧
        (recordWorkerPayment f (some pid) (some a) (some d) desc db).1.workers =
          db.workers.map (updWorker pid a d) ∧
        (recordWorkerPayment f (some pid) (some a) (some d) desc db).1.projects =
          db.projects ∧
        (recordWorkerPayment f (some pid) (some a) (some d) desc db).1.vendors =
          db.vendors ∧
        (recordWorkerPayment f (some pid) (some a) (some d) desc db).1.vendor_payments =
          db.vendor_payments ∧
        (recordWorkerPayment f (some pid) (some a) (some d) desc db).1.inventory =
          db.inventory ∧
        (∀ w ∈ db.workers, ¬ w.id = pid →
          w ∈ (recordWorkerPayment f (some pid) (some a) (some d) desc db).1.workers) ∧
        (∀ w : WorkerRow, (updWorker pid a d w).id = w.id ∧
          (updWorker pid a d w).name = w.name ∧
          (updWorker pid a d w).role = w.role ∧
          (updWorker pid a d w).hourly_rate = w.hourly_rate ∧
          (updWorker pid a d w).contact = w.contact ∧
          (updWorker pid a d w).created_at = w.created_at)) ∧
    ((recordVendorPayment f (some pid) (some a) (some d) desc db).2 = .ok vrow →
      (recordVendorPayment f (some pid) (some a) (some d) desc db).1.vendor_payments =
          db.vendor_payments ++ [vrow] ∧
        (recordVendorPayment f (some pid) (some a) (some d) desc db).1.vendors =
          db.vendors.map (updVendor pid a d) ∧
        (recordVendorPayment f (some pid) (some a) (some d) desc db).1.projects =
          db.projects ∧
        (recordVendorPayment f (some pid) (some a) (some d) desc db).1.workers =
          db.workers ∧
        (recordVendorPayment f (some pid) (some a) (some d) desc db).1.worker_payments =
          db.worker_payments ∧
        (recordVendorPayment f (some pid) (some a) (some d) desc db).1.inventory =
          db.inventory ∧
        (∀ v ∈ db.vendors, ¬ v.id = pid →
          v ∈ (recordVendorPayment f (some pid) (some a) (some d) desc db).1.vendors) ∧
        (∀ v : VendorRow, (updVendor pid a d v).id = v.id ∧
          (updVendor pid a d v).name = v.name ∧
          (updVendor pid a d v).category = v.category ∧
          (updVendor pid a d v).rating = v.rating ∧
          (updVendor pid a d v).contact = v.contact ∧
          (updVendor pid a d v).created_at = v.created_at)) := by
  constructor
  · intro h
    rcases rwp_cases f (some pid) (some a) (some d) desc db with
      ⟨-, c, he2⟩ | ⟨wid, a', d', hid, ha, hd, he⟩
    · rw [h] at he2
      simp at he2
    · obtain rfl : pid = wid := Option.some.inj hid
      obtain rfl : a = a' := Option.some.inj ha
      obtain rfl : d = d' := Option.some.inj hd
      rw [he] at h
      have hrow : newWorkerPaymentRow pid a d desc db = wrow := by
        simpa using h
      subst hrow
      rw [he]
      refine ⟨rfl, rfl, rfl, rfl, rfl, rfl, ?_, ?_⟩
      · intro w hw hne
        exact List.mem_map.2 ⟨w, hw, updWorker_eq_of_ne pid a d w hne⟩
      · intro w
        unfold updWorker
        split <;> exact ⟨rfl, rfl, rfl, rfl, rfl, rfl⟩
  · intro h
    rcases rvp_cases f (some pid) (some a) (some d) desc db with
      ⟨-, c, he2⟩ | ⟨vid, a', d', hid, ha, hd, he⟩
    · rw [h] at he2
      simp at he2
    · obtain rfl : pid = vid := Option.some.inj hid
      obtain rfl : a = a' := Option.some.inj ha
      obtain rfl : d = d' := Option.some.inj hd
      rw [he] at h
      have hrow : newVendorPaymentRow pid a d desc db = vrow := by
        simpa using h
      subst hrow
      rw [he]
      refine ⟨rfl, rfl, rfl, rfl, rfl, rfl, ?_, ?_⟩
      · intro v hv hne
        exact List.mem_map.2 ⟨v, hv, updVendor_eq_of_ne pid a d v hne⟩
      · intro v
        unfold updVendor
        split <;> exact ⟨rfl, rfl, rfl, rfl, rfl, rfl⟩

/-- Witness for C10: a successful payment to worker 1 of `db1` appends the
returned row to `worker_payments` and leaves the vendor tables, projects and
inventory untouched. -/
theorem payment_frame_effect_witness :
    (recordWorkerPayment noFaults (some 1) (some 100) (some 20240210) none
        db1).1.worker_payments =
      db1.worker_payments ++ [newWorkerPaymentRow 1 100 20240210 none db1] ∧
    (recordWorkerPayment noFaults (some 1) (some 100) (some 20240210) none
        db1).1.vendors = db1.vendors ∧
    (recordWorkerPayment noFaults (some 1) (some 100) (some 20240210) none
        db1).1.vendor_payments = db1.vendor_payments := by
  have h := (payment_frame_effect noFaults 1 100 20240210 none db1
    (newWorkerPaymentRow 1 100 20240210 none db1)
    (newVendorPaymentRow 1 100 20240210 none db1)).1 (by decide)
  exact ⟨h.1, h.2.2.2.1, h.2.2.2.2.1⟩

theorem projWorkerRow_updWorker (wid : Nat) (a d : Int) (w : WorkerRow) :
    projWorkerRow (updWorker wid a d w) = updPayee wid a d (projWorkerRow w) := by
  unfold updWorker updPayee projWorkerRow
  by_cases h : w.id = wid <;> simp [h]

theorem projVendorRow_updVendor (vid : Nat) (a d : Int) (v : VendorRow) :
    projVendorRow (updVendor vid a d v) = updPayee vid a d (projVendorRow v) := by
  unfold updVendor updPayee projVendorRow
  by_cases h : v.id = vid <;> simp [h]

theorem projWorkerRow_id (w : WorkerRow) : (projWorkerRow w).id = w.id := rfl

theorem projVendorRow_id (v : VendorRow) : (projVendorRow v).id = v.id := rfl

theorem comp_projWorkerRow_updWorker (wid : Nat) (a d : Int) :
    (projWorkerRow ∘ updWorker wid a d) = (updPayee wid a d ∘ projWorkerRow) :=
  funext fun w => projWorkerRow_updWorker wid a d w

theorem comp_projVendorRow_updVendor (vid : Nat) (a d : Int) :
    (projVendorRow ∘ updVendor vid a d) = (updPayee vid a d ∘ projVendorRow) :=
  funext fun v => projVendorRow_updVendor vid a d v

theorem any_map_projWorkerRow (l : List WorkerRow) (wid : Nat) :
    (l.map projWorkerRow).any (fun p => p.id = wid) =
      l.any (fun w => w.id = wid) := by
  induction l with
  | nil => rfl
  | cons x xs ih => simp [List.any_cons, ih, projWorkerRow]

theorem any_map_projVendorRow (l : List VendorRow) (vid : Nat) :
    (l.map projVendorRow).any (fun p => p.id = vid) =
      l.any (fun v => v.id = vid) := by
  induction l with
  | nil => rfl
  | cons x xs ih => simp [List.any_cons, ih, projVendorRow]

/-- The generic coordinator simulates the worker endpoint exactly, under the
worker-table renaming. -/
theorem genW_commute (f : Faults) (idp : Option Nat) (amt dt : Option Int)
    (desc : Option String) (db : DB) :
    genericRecordPayment f idp amt dt desc (projW db) =
      (projW ((recordWorkerPayment f idp amt dt desc db).1),
       mapApiResult projWorkerPaymentRow
         ((recordWorkerPayment f idp amt dt desc db).2)) := by
  unfold genericRecordPayment recordWorkerPayment
  by_cases hf : f.insertFault = true
  · simp [hf, mapApiResult]
  · cases idp with
    | none => cases amt <;> cases dt <;> simp [hf, mapApiResult]
    | some wid =>
      cases amt with
      | none => cases dt <;> simp [hf, mapApiResult]
      | some a =>
        cases dt with
        | none => simp [hf, mapApiResult]
        | some d =>
          have hc : ((projW db).payees.any (fun p => p.id = wid)) =
              (db.workers.any (fun w => w.id = wid)) :=
            any_map_projWorkerRow db.workers wid
          by_cases hany : db.workers.any (fun w => w.id = wid) = true
          · by_cases hu : f.updateFault = true
            · simp [hf, hc, hany, hu, mapApiResult]
            · by_cases hcm : f.commitFault = true
              · simp [hf, hc, hany, hu, hcm, mapApiResult]
              · have hany' : ∃ x ∈ db.workers, x.id = wid := by
                  simpa [List.any_eq_true] using hany
                simp [hf, hc, hany, hu, hcm, mapApiResult, projW,
                  newLedgerRow, newWorkerPaymentRow, projWorkerPaymentRow,
                  List.map_append, List.map_map, projWorkerRow_id, hany',
                  comp_projWorkerRow_updWorker]
          · simp [hf, hc, hany, mapApiResult]

/-- The generic coordinator simulates the vendor endpoint exactly, under the
vendor-table renaming. -/
theorem genV_commute (f : Faults) (idp : Option Nat) (amt dt : Option Int)
    (desc : Option String) (db : DB) :
    genericRecordPayment f idp amt dt desc (projV db) =
      (projV ((recordVendorPayment f idp amt dt desc db).1),
       mapApiResult projVendorPaymentRow
         ((recordVendorPayment f idp amt dt desc db).2)) := by
  unfold genericRecordPayment recordVendorPayment
  by_cases hf : f.insertFault = true
  · simp [hf, mapApiResult]
  · cases idp with
    | none => cases amt <;> cases dt <;> simp [hf, mapApiResult]
    | some vid =>
      cases amt with
      | none => cases dt <;> simp [hf, mapApiResult]
      | some a =>
        cases dt with
        | none => simp [hf, mapApiResult]
        | some d =>
          have hc : ((projV db).payees.any (fun p => p.id = vid)) =
              (db.vendors.any (fun v => v.id = vid)) :=
            any_map_projVendorRow db.vendors vid
          by_cases hany : db.vendors.any (fun v => v.id = vid) = true
          · by_cases hu : f.updateFault = true
            · simp [hf, hc, hany, hu, mapApiResult]
            · by_cases hcm : f.commitFault = true
              · simp [hf, hc, hany, hu, hcm, mapApiResult]
              · have hany' : ∃ x ∈ db.vendors, x.id = vid := by
                  simpa [List.any_eq_true] using hany
                simp [hf, hc, hany, hu, hcm, mapApiResult, projV,
                  newLedgerRow, newVendorPaymentRow, projVendorPaymentRow,
                  List.map_append, List.map_map, projVendorRow_id, hany',
                  comp_projVendorRow_updVendor]
          · simp [hf, hc, hany, mapApiResult]

/-- C9 — One coordinator, two renamings: for every fault pattern, input and
state, the worker endpoint and the vendor endpoint are each simulated —
state transition and response alike — by the single kind-independent
`genericRecordPayment` under the renaming of their payee/ledger tables
(`projW`, `projV`, and the row renamings).  The two code paths are therefore
the same transaction logic up to the workers/worker_payments versus
vendors/vendor_payments renaming, producing identically shaped results and
identical state transitions on the shared slice of state. -/
theorem worker_vendor_one_coordinator (f : Faults) (idp : Option Nat)
    (amt dt : Option Int) (desc : Option String) (db : DB) :
    (projW ((recordWorkerPayment f idp amt dt desc db).1) =
        (genericRecordPayment f idp amt dt desc (projW db)).1 ∧
      mapApiResult projWorkerPaymentRow
          ((recordWorkerPayment f idp amt dt desc db).2) =
        (genericRecordPayment f idp amt dt desc (projW db)).2) ∧
    (projV ((recordVendorPayment f idp amt dt desc db).1) =
        (genericRecordPayment f idp amt dt desc (projV db)).1 ∧
      mapApiResult projVendorPaymentRow
          ((recordVendorPayment f idp amt dt desc db).2) =
        (genericRecordPayment f idp amt dt desc (projV db)).2) := by
  rw [genW_commute, genV_commute]
  exact ⟨⟨rfl, rfl⟩, ⟨rfl, rfl⟩⟩
